import Mathlib

/-!
Verification of the Emotion Escape simulation core (src/main.js) against its
natural-language specification.  The JavaScript code is shallowly embedded:
numbers become rationals, the per-frame mutation of module state becomes
explicit state passing, and `Math.random()` draws become explicit oracle
parameters.  Definitions are transcribed from the source; theorems settle the
spec claims about them.
-/

namespace Runner

/-- Virtual resolution width (`const VW = 1024`). -/
def VW : ℚ := 1024

/-- Virtual resolution height (`const VH = 576`). -/
def VH : ℚ := 576

/-- Ground line (`let groundY = VH - 96`; never reassigned). -/
def groundY : ℚ := VH - 96

/-- `function clamp(v,a,b){ return Math.max(a, Math.min(b, v)); }` -/
def clamp (v a b : ℚ) : ℚ := max a (min b v)

/-- The three mood values consumed by the core (`'happy' | 'calm' | 'stressed'`). -/
inductive Mood where
  | happy
  | calm
  | stressed
deriving DecidableEq, Repr, Fintype

/-- The parameter bundle returned by `moodParams` (cosmetic string fields kept). -/
structure MoodProfile where
  sky : String
  ground : String
  fog : ℚ
  accent : String
  speedBase : ℚ
  grav : ℚ
  spawnRateBase : ℚ
  gapBias : ℚ
  coinRate : ℚ
  droneRate : ℚ
  pillarRate : ℚ
deriving Repr

/-- `function moodParams(mood)` from src/main.js lines 151-167; any mood other
than happy/stressed falls through to the calm profile. -/
def moodParams (mood : Mood) : MoodProfile :=
  match mood with
  | .happy =>
    { sky := "#69e1ff", ground := "#16a34a", fog := 3/100, accent := "#7bdcff",
      speedBase := 300, grav := 1480,
      spawnRateBase := 11/10, gapBias := 40, coinRate := 15/10,
      droneRate := 18/100, pillarRate := 46/100 }
  | .stressed =>
    { sky := "#1a2a3a", ground := "#0f5132", fog := 10/100, accent := "#ff7b88",
      speedBase := 360, grav := 1560,
      spawnRateBase := 82/100, gapBias := -20, coinRate := 85/100,
      droneRate := 33/100, pillarRate := 40/100 }
  | .calm =>
    { sky := "#259eff", ground := "#0a5", fog := 5/100, accent := "#66e0ff",
      speedBase := 330, grav := 1520,
      spawnRateBase := 95/100, gapBias := 10, coinRate := 1,
      droneRate := 25/100, pillarRate := 45/100 }

/-- The dt computation at the top of `loop` (src/main.js line 217):
`const dt = Math.min(0.033, (ts - tPrev)/1000)`.  `raw` stands for the
elapsed milliseconds divided by 1000. -/
def loopDt (raw : ℚ) : ℚ := min (33/1000) raw

/-- The high-score update performed by `gameOver` (src/main.js line 366):
`hiScore = Math.max(hiScore, Math.floor(score))`. -/
def gameOverHi (hi : ℤ) (score : ℚ) : ℤ := max hi ⌊score⌋

/-- High score after a sequence of completed runs, each ending in `gameOver`
with the given final score. -/
def runsHi (hi0 : ℤ) (scores : List ℚ) : ℤ := scores.foldl gameOverHi hi0

/-- Per-frame horizontal input snapshot (held left/right keys or touch flags). -/
structure Input where
  left : Bool
  right : Bool
deriving DecidableEq, Repr

/-- One frame of host input: held movement keys, the frame dt, and whether a
jump request (keydown / touch handler setting `player.jumpBuf = 0.18`) arrived
since the previous frame. -/
structure Frame where
  inp : Input
  dt : ℚ
  jump : Bool
deriving DecidableEq, Repr

/-- Player state (`const player = {x:160, y:0, w:46, h:52, vx:0, vy:0,
onGround:false, jumpsLeft:2, coyote:0, jumpBuf:0, trail:[]}`). -/
structure PlayerState where
  x : ℚ
  y : ℚ
  w : ℚ
  h : ℚ
  vx : ℚ
  vy : ℚ
  onGround : Bool
  jumpsLeft : ℕ
  coyote : ℚ
  jumpBuf : ℚ
  trail : List (ℚ × ℚ)
deriving DecidableEq, Repr

/-- The keydown/touch jump handlers (src/main.js lines 59-62, 88-93):
a jump request sets `player.jumpBuf = 0.18`. -/
def applyRequest (req : Bool) (p : PlayerState) : PlayerState :=
  if req then { p with jumpBuf := 18/100 } else p

/-- The jump-resolution block of `handlePlayer` (src/main.js lines 261-269),
run on a state whose `coyote`/`jumpBuf` timers were already updated this frame.
The returned `Option ℚ` is the vertical velocity passed to `doJump` (`-700`
for a ground/coyote jump, `-650` for an air jump), `none` if no jump fired. -/
def jumpResolve (p : PlayerState) : PlayerState × Option ℚ :=
  if 0 < p.jumpBuf then
    if p.onGround = true ∨ 0 < p.coyote then
      ({ p with vy := -700, onGround := false, coyote := 0, jumpsLeft := 1,
                jumpBuf := 0 }, some (-700))
    else if 0 < p.jumpsLeft then
      ({ p with vy := -650, jumpsLeft := 0, jumpBuf := 0 }, some (-650))
    else (p, none)
  else (p, none)

/-- The pre-jump block of `handlePlayer` (src/main.js lines 247-259):
horizontal acceleration, grounded/airborne drag, vx clamp, trail ring update,
coyote-timer reset/decay, jump-buffer decay. -/
def frameTimers (inp : Input) (dt : ℚ) (p : PlayerState) : PlayerState :=
  let intent : ℚ := (if inp.right then 1 else 0) - (if inp.left then 1 else 0)
  let vx := clamp ((p.vx + intent * 1400 * dt) *
    (if p.onGround = true then 88/100 else 98/100)) (-260) 260
  let tr0 := (p.x, p.y) :: p.trail
  let trail := if 10 < tr0.length then tr0.dropLast else tr0
  { p with vx := vx, trail := trail,
           coyote := if p.onGround = true then 18/100 else max 0 (p.coyote - dt),
           jumpBuf := max 0 (p.jumpBuf - dt) }

/-- The integration tail of `handlePlayer` (src/main.js lines 271-281):
gravity, position integration, ground snapping (`y = floorY`, `vy = 0`,
grounded, `jumpsLeft = 2`), and the horizontal clamp to `[20, VW-80]`. -/
def landStep (g : ℚ) (dt : ℚ) (floorY : ℚ) (p2 : PlayerState) : PlayerState :=
  let vy := p2.vy + g * dt
  let x := clamp (p2.x + p2.vx * dt) 20 (VW - 80)
  let y := p2.y + vy * dt
  if floorY ≤ y then
    { p2 with x := x, y := floorY, vy := 0, onGround := true, jumpsLeft := 2 }
  else
    { p2 with x := x, y := y, vy := vy, onGround := false }

/-- `function handlePlayer(dt)` (src/main.js lines 246-282), with the gravity
in force this frame passed explicitly: timers, jump resolution, then the
integration/landing tail.  Returns the new player state and the jump event
(the `doJump` argument) if one fired. -/
def handlePlayer (g : ℚ) (inp : Input) (dt : ℚ) (p : PlayerState) :
    PlayerState × Option ℚ :=
  let pe := jumpResolve (frameTimers inp dt p)
  (landStep g dt (groundY - p.h) pe.1, pe.2)

/-- The initial player literal (src/main.js lines 126-131). -/
def initialPlayer : PlayerState :=
  { x := 160, y := 0, w := 46, h := 52, vx := 0, vy := 0,
    onGround := false, jumpsLeft := 2, coyote := 0, jumpBuf := 0, trail := [] }

/-- One whole frame seen by the player: pending jump requests land in
`jumpBuf` (keydown handler) before `handlePlayer` runs inside `update`. -/
def stepFrame (g : ℚ) (f : Frame) (p : PlayerState) : PlayerState × Option ℚ :=
  handlePlayer g f.inp f.dt (applyRequest f.jump p)

/-- The state the jump-resolution block sees inside a frame: request applied,
then the timer block. -/
def preJump (f : Frame) (p : PlayerState) : PlayerState :=
  frameTimers f.inp f.dt (applyRequest f.jump p)

/-- Player state after a list of frames. -/
def runP (g : ℚ) (p : PlayerState) : List Frame → PlayerState
  | [] => p
  | f :: fs => runP g (stepFrame g f p).1 fs

/-- The successive post-frame player states along a run. -/
def runStates (g : ℚ) (p : PlayerState) : List Frame → List PlayerState
  | [] => []
  | f :: fs => (stepFrame g f p).1 :: runStates g (stepFrame g f p).1 fs

/-- Total weight of the jump events fired along a run. -/
def runCount (w : Option ℚ → ℕ) (g : ℚ) (p : PlayerState) : List Frame → ℕ
  | [] => 0
  | f :: fs => w (stepFrame g f p).2 + runCount w g (stepFrame g f p).1 fs

/-- Weight 1 for any jump event. -/
def jumpWeight (e : Option ℚ) : ℕ := if e.isSome then 1 else 0

/-- Weight 1 for a ground/coyote jump (`doJump(-700)`). -/
def groundJumpWeight (e : Option ℚ) : ℕ := if e = some (-700) then 1 else 0

/-- Weight 1 for an air jump (`doJump(-650)`). -/
def airJumpWeight (e : Option ℚ) : ℕ := if e = some (-650) then 1 else 0

/-- Every post-frame state of the run is airborne (`onGround = false`):
the run stays strictly between two grounded states. -/
def airborneRunB (g : ℚ) (p : PlayerState) : List Frame → Bool
  | [] => true
  | f :: fs => !(stepFrame g f p).1.onGround && airborneRunB g (stepFrame g f p).1 fs

/-- Sum of the frame deltas of a run. -/
def sumDt (fs : List Frame) : ℚ := (fs.map Frame.dt).sum

/-- Remaining total jump budget of a state: two jumps are available whenever
grounded or inside the coyote window, otherwise at most the pending air jump. -/
def totalPotential (p : PlayerState) : ℕ :=
  if p.onGround = true ∨ 0 < p.coyote then 2
  else if 0 < p.jumpsLeft then 1 else 0

/-- Remaining ground-jump budget: one while grounded or inside the coyote
window, none afterwards. -/
def groundPotential (p : PlayerState) : ℕ :=
  if p.onGround = true ∨ 0 < p.coyote then 1 else 0

/-- Remaining air-jump budget: zero exactly in the dead-air states
(airborne, coyote expired, no jumps left) from which no jump can ever fire
again before touching ground. -/
def airPotential (p : PlayerState) : ℕ :=
  if p.onGround = false ∧ p.coyote ≤ 0 ∧ p.jumpsLeft = 0 then 0 else 1

/-- The three obstacle-pattern generators `spawnLogic` chooses among. -/
inductive SpawnPattern where
  | blockPattern
  | drone
  | gapWithBridge
deriving DecidableEq, Repr

/-- Result of one `spawnLogic` call: the new spawn timer, which pattern
generator ran (if the interval elapsed), whether a coin arc was also spawned,
and whether a parallax hill was added this frame. -/
structure SpawnOut where
  timeSinceSpawn : ℚ
  pattern : Option SpawnPattern
  coinArc : Bool
  hill : Bool
deriving DecidableEq, Repr

/-- `function spawnLogic(dt, mood)` (src/main.js lines 284-297), with the
three `Math.random()` draws passed explicitly: `r` selects the obstacle
pattern, `rc` gates the coin arc, `rh` gates the parallax hill. -/
def spawnLogic (mood : MoodProfile) (runTime timeSinceSpawn dt r rc rh : ℚ) :
    SpawnOut :=
  let t := timeSinceSpawn + dt
  let rate := clamp (mood.spawnRateBase - runTime * (6/1000)) (55/100) (115/100)
  if rate ≤ t then
    { timeSinceSpawn := 0,
      pattern := some (if r < mood.pillarRate then .blockPattern
                       else if r < mood.pillarRate + mood.droneRate then .drone
                       else .gapWithBridge),
      coinArc := decide (rc < 3/4 * mood.coinRate),
      hill := decide (rh < 8/100) }
  else
    { timeSinceSpawn := t, pattern := none, coinArc := false,
      hill := decide (rh < 8/100) }

/-- Axis-aligned rectangle (player bounding box / obstacle extent). -/
structure Rect where
  x : ℚ
  y : ℚ
  w : ℚ
  h : ℚ
deriving DecidableEq, Repr

/-- `function rectOverlap(a,b)` (src/main.js line 666), for operands that both
carry width and height. -/
def rectOverlap (a b : Rect) : Bool :=
  decide (a.x < b.x + b.w) && decide (b.x < a.x + a.w) &&
  decide (a.y < b.y + b.h) && decide (b.y < a.y + a.h)

/-- `function circleRectOverlap(c,r)` (src/main.js line 667). -/
def circleRectOverlap (cx cy cr : ℚ) (r : Rect) : Bool :=
  let px := clamp cx r.x (r.x + r.w)
  let py := clamp cy r.y (r.y + r.h)
  let dx := cx - px
  let dy := cy - py
  decide (dx * dx + dy * dy ≤ cr * cr)

/-- Tagged obstacle union: `{type:'block'|'drone'|'gate', x,y,w,h,r,vy,phase,angle}`. -/
inductive Obstacle where
  | block (x y w h : ℚ)
  | drone (x y r vy phase angle : ℚ)
  | gate (x y w h : ℚ)
deriving DecidableEq, Repr

/-- Coin entity (`coins.push({x, y, r, worth, t})`). -/
structure Coin where
  x : ℚ
  y : ℚ
  r : ℚ
  worth : ℚ
  t : ℚ
deriving DecidableEq, Repr

/-- Parallax decoration (`decor.push({x, y, w, h, speed, shade})`). -/
structure Decor where
  x : ℚ
  y : ℚ
  w : ℚ
  h : ℚ
  speed : ℚ
  shade : String
deriving DecidableEq, Repr

/-- Transient particle (`particles.push({x,y,vx,vy,r,color,t,lifespan})`). -/
structure Particle where
  x : ℚ
  y : ℚ
  vx : ℚ
  vy : ℚ
  r : ℚ
  color : String
  t : ℚ
  lifespan : ℚ
deriving DecidableEq, Repr

/-- The module-level mutable state of src/main.js that the collision pass,
game-over transition and end-of-frame pruning touch. -/
structure GameState where
  playing : Bool
  paused : Bool
  score : ℚ
  hiScore : ℤ
  runTime : ℚ
  player : PlayerState
  obstacles : List Obstacle
  coins : List Coin
  decor : List Decor
  particles : List Particle
  shakeTime : ℚ
  shakeMag : ℚ
deriving Repr

/-- The player's bounding rectangle as passed to the overlap tests. -/
def playerRect (p : PlayerState) : Rect := ⟨p.x, p.y, p.w, p.h⟩

/-- The per-obstacle hit test of `handleCollisions`: rectangle overlap for
blocks and gates, circle-vs-rectangle for drones. -/
def obstacleHit (pr : Rect) : Obstacle → Bool
  | .block x y w h => rectOverlap pr ⟨x, y, w, h⟩
  | .gate x y w h => rectOverlap pr ⟨x, y, w, h⟩
  | .drone x y r _ _ _ => circleRectOverlap x y r pr

/-- `function gameOver()` (src/main.js lines 364-369): stop play, trigger the
hit shake `shake(260, 0.25)` (i.e. `shakeMag = 260/100`, `shakeTime = 0.25`),
and fold the floored score into the persisted high score. -/
def gameOver (s : GameState) : GameState :=
  { s with playing := false,
           shakeMag := 260/100, shakeTime := 25/100,
           hiScore := max s.hiScore ⌊s.score⌋ }

/-- Accumulator for the coin pass of `handleCollisions`. -/
structure CoinAcc where
  coins : List Coin
  score : ℚ
  particles : List Particle
  hit : Bool
deriving Repr

/-- One iteration of the coin loop in `handleCollisions` (src/main.js lines
357-359): on overlap credit `worth`, emit a sparkle burst (12 particles,
randomness supplied by the oracle `sp`), and park the coin at `x = -9999`. -/
def coinStep (sp : ℚ → ℚ → List Particle) (pr : Rect) (acc : CoinAcc)
    (c : Coin) : CoinAcc :=
  if circleRectOverlap c.x c.y c.r pr then
    { coins := acc.coins ++ [{ c with x := -9999 }],
      score := acc.score + c.worth,
      particles := acc.particles ++ sp c.x c.y,
      hit := true }
  else { acc with coins := acc.coins ++ [c] }

/-- `function handleCollisions()` (src/main.js lines 352-360): scan obstacles
in order and call `gameOver` on the first hit (the `return` short-circuits the
pass, skipping the coin loop); otherwise run the coin-pickup loop, where each
pickup also calls `shake(60, 0.08)`. -/
def handleCollisions (sp : ℚ → ℚ → List Particle) (s : GameState) : GameState :=
  let pr := playerRect s.player
  if s.obstacles.any (obstacleHit pr) then gameOver s
  else
    let a := s.coins.foldl (coinStep sp pr) ⟨[], s.score, s.particles, false⟩
    { s with coins := a.coins, score := a.score, particles := a.particles,
             shakeMag := if a.hit then 60/100 else s.shakeMag,
             shakeTime := if a.hit then 8/100 else s.shakeTime }

/-- Per-particle step of `updateParticles(dt)` (src/main.js line 378); note
`p.y` integrates the already-updated `p.vy`. -/
def updateParticle (dt : ℚ) (pt : Particle) : Particle :=
  let vy := pt.vy + 900 * dt
  { pt with t := pt.t + dt, vy := vy, x := pt.x + pt.vx * dt,
            y := pt.y + vy * dt, r := pt.r * (98/100) }

/-- Obstacle retention test of the end-of-frame pruning (src/main.js line 239):
`(o.x + (o.w||0) > -180) && (o.y < VH + 400)`; drones have no `w`, so the
`||0` fallback applies. -/
def keepObstacle : Obstacle → Bool
  | .block x y w _ => decide (-180 < x + w) && decide (y < VH + 400)
  | .gate x y w _ => decide (-180 < x + w) && decide (y < VH + 400)
  | .drone x y _ _ _ _ => decide (-180 < x + 0) && decide (y < VH + 400)

/-- Coin retention test (src/main.js line 240): `c.x + c.r > -160`. -/
def keepCoin (c : Coin) : Bool := decide (-160 < c.x + c.r)

/-- Decoration retention test (src/main.js line 241): `d.x + d.w > -120`. -/
def keepDecor (d : Decor) : Bool := decide (-120 < d.x + d.w)

/-- Particle retention test (src/main.js line 242): `p.t < p.lifespan`. -/
def keepParticle (pt : Particle) : Bool := decide (pt.t < pt.lifespan)

/-- The tail of `update(dt)` from the collision pass onward (src/main.js lines
236-242): `handleCollisions()`, then `updateParticles(dt)`, then the four
pruning filters.  Nothing after the collision pass touches `score`. -/
def updateTail (sp : ℚ → ℚ → List Particle) (dt : ℚ) (s : GameState) :
    GameState :=
  let s1 := handleCollisions sp s
  let s2 := { s1 with particles := s1.particles.map (updateParticle dt) }
  { s2 with obstacles := s2.obstacles.filter keepObstacle,
            coins := s2.coins.filter keepCoin,
            decor := s2.decor.filter keepDecor,
            particles := s2.particles.filter keepParticle }

/-! ## Helper lemmas -/

theorem jumpResolveSpec (p : PlayerState) :
    (0 < p.jumpBuf ∧ (p.onGround = true ∨ 0 < p.coyote) ∧
      jumpResolve p = ({ p with vy := -700, onGround := false, coyote := 0, jumpsLeft := 1, jumpBuf := 0 }, some (-700))) ∨
    (0 < p.jumpBuf ∧ ¬(p.onGround = true ∨ 0 < p.coyote) ∧ 0 < p.jumpsLeft ∧
      jumpResolve p = ({ p with vy := -650, jumpsLeft := 0, jumpBuf := 0 }, some (-650))) ∨
    ((¬0 < p.jumpBuf ∨ (¬(p.onGround = true ∨ 0 < p.coyote) ∧
        ¬0 < p.jumpsLeft)) ∧
      jumpResolve p = (p, none)) := by
  unfold jumpResolve
  split_ifs with h1 h2 h3
  · exact Or.inl ⟨h1, h2, rfl⟩
  · exact Or.inr (Or.inl ⟨h1, h2, h3, rfl⟩)
  · exact Or.inr (Or.inr ⟨Or.inr ⟨h2, h3⟩, rfl⟩)
  · exact Or.inr (Or.inr ⟨Or.inl h1, rfl⟩)

theorem preJump_onGround (f : Frame) (p : PlayerState) :
    (preJump f p).onGround = p.onGround := by
  cases hj : f.jump <;> simp [preJump, frameTimers, applyRequest, hj]

theorem preJump_jumpsLeft (f : Frame) (p : PlayerState) :
    (preJump f p).jumpsLeft = p.jumpsLeft := by
  cases hj : f.jump <;> simp [preJump, frameTimers, applyRequest, hj]

theorem preJump_coyote (f : Frame) (p : PlayerState) :
    (preJump f p).coyote =
      if p.onGround = true then 18/100 else max 0 (p.coyote - f.dt) := by
  cases hj : f.jump <;> simp [preJump, frameTimers, applyRequest, hj]

theorem preJump_jumpBuf (f : Frame) (p : PlayerState) :
    (preJump f p).jumpBuf =
      max 0 ((if f.jump = true then 18/100 else p.jumpBuf) - f.dt) := by
  cases hj : f.jump <;> simp [preJump, frameTimers, applyRequest, hj]

theorem landStep_coyote (g dt floorY : ℚ) (p2 : PlayerState) :
    (landStep g dt floorY p2).coyote = p2.coyote := by
  unfold landStep
  dsimp only
  split <;> rfl

theorem landStep_jumpBuf (g dt floorY : ℚ) (p2 : PlayerState) :
    (landStep g dt floorY p2).jumpBuf = p2.jumpBuf := by
  unfold landStep
  dsimp only
  split <;> rfl

theorem landStep_jumpsLeft_cases (g dt floorY : ℚ) (p2 : PlayerState) :
    (landStep g dt floorY p2).jumpsLeft = 2 ∨
    ((landStep g dt floorY p2).jumpsLeft = p2.jumpsLeft ∧
      (landStep g dt floorY p2).onGround = false) := by
  unfold landStep
  dsimp only
  split
  · exact Or.inl rfl
  · exact Or.inr ⟨rfl, rfl⟩

theorem landStep_air_onGround (g dt floorY : ℚ) (p2 : PlayerState)
    (h : (landStep g dt floorY p2).onGround = false) :
    (landStep g dt floorY p2).jumpsLeft = p2.jumpsLeft := by
  revert h
  unfold landStep
  dsimp only
  split
  · intro h; exact Bool.noConfusion h
  · intro _; rfl

theorem stepFrame_ev (g : ℚ) (f : Frame) (p : PlayerState) :
    (stepFrame g f p).2 = (jumpResolve (preJump f p)).2 := rfl

theorem stepFrame_fst (g : ℚ) (f : Frame) (p : PlayerState) :
    (stepFrame g f p).1 =
      landStep g f.dt (groundY - (applyRequest f.jump p).h)
        (jumpResolve (preJump f p)).1 := rfl

theorem stepFrame_coyote (g : ℚ) (f : Frame) (p : PlayerState) :
    (stepFrame g f p).1.coyote = (jumpResolve (preJump f p)).1.coyote := by
  rw [stepFrame_fst, landStep_coyote]

theorem stepFrame_jumpBuf (g : ℚ) (f : Frame) (p : PlayerState) :
    (stepFrame g f p).1.jumpBuf = (jumpResolve (preJump f p)).1.jumpBuf := by
  rw [stepFrame_fst, landStep_jumpBuf]

theorem stepFrame_jumpsLeft_cases (g : ℚ) (f : Frame) (p : PlayerState) :
    (stepFrame g f p).1.jumpsLeft = 2 ∨
    (stepFrame g f p).1.jumpsLeft =
      (jumpResolve (preJump f p)).1.jumpsLeft := by
  rw [stepFrame_fst]
  rcases landStep_jumpsLeft_cases g f.dt (groundY - (applyRequest f.jump p).h)
    (jumpResolve (preJump f p)).1 with h | h
  · exact Or.inl h
  · exact Or.inr h.1

theorem stepFrame_jumpsLeft_air (g : ℚ) (f : Frame) (p : PlayerState)
    (h : (stepFrame g f p).1.onGround = false) :
    (stepFrame g f p).1.jumpsLeft =
      (jumpResolve (preJump f p)).1.jumpsLeft := by
  rw [stepFrame_fst] at h ⊢
  exact landStep_air_onGround _ _ _ _ h

theorem stateOfEvNone (f : Frame) (p : PlayerState)
    (h : (jumpResolve (preJump f p)).2 = none) :
    (jumpResolve (preJump f p)).1 = preJump f p := by
  rcases jumpResolveSpec (preJump f p) with ⟨_, _, heq⟩ | ⟨_, _, _, heq⟩ |
    ⟨_, heq⟩
  · rw [heq] at h; cases h
  · rw [heq] at h; cases h
  · rw [heq]

theorem stepSpec (g : ℚ) (f : Frame) (p : PlayerState)
    (hdt : 0 ≤ f.dt) (hpost : (stepFrame g f p).1.onGround = false) :
    ((stepFrame g f p).2 = some (-700) ∧ (p.onGround = true ∨ 0 < p.coyote) ∧
      0 < max 0 ((if f.jump = true then 18/100 else p.jumpBuf) - f.dt) ∧
      (stepFrame g f p).1.coyote = 0 ∧ (stepFrame g f p).1.jumpsLeft = 1) ∨
    ((stepFrame g f p).2 = some (-650) ∧ p.onGround = false ∧
      0 < p.jumpsLeft ∧
      0 < max 0 ((if f.jump = true then 18/100 else p.jumpBuf) - f.dt) ∧
      (stepFrame g f p).1.coyote = 0 ∧ (stepFrame g f p).1.jumpsLeft = 0) ∨
    ((stepFrame g f p).2 = none ∧
      (stepFrame g f p).1.jumpsLeft = p.jumpsLeft ∧
      (stepFrame g f p).1.coyote =
        (if p.onGround = true then 18/100 else max 0 (p.coyote - f.dt)) ∧
      (stepFrame g f p).1.jumpBuf =
        max 0 ((if f.jump = true then 18/100 else p.jumpBuf) - f.dt)) := by
  have hev := stepFrame_ev g f p
  have hcoy := stepFrame_coyote g f p
  have hbuf := stepFrame_jumpBuf g f p
  have hjl := stepFrame_jumpsLeft_air g f p hpost
  have hpc := preJump_coyote f p
  have hpb := preJump_jumpBuf f p
  have hpg := preJump_onGround f p
  have hpj := preJump_jumpsLeft f p
  rcases jumpResolveSpec (preJump f p) with ⟨h1, h2, heq⟩ |
    ⟨h1, h2, h3, heq⟩ | ⟨h1, heq⟩
  · refine Or.inl ⟨by rw [hev, heq], ?_, by rw [← hpb]; exact h1,
      by rw [hcoy, heq], by rw [hjl, heq]⟩
    rcases h2 with h2 | h2
    · exact Or.inl (hpg ▸ h2)
    · by_cases hg : p.onGround = true
      · exact Or.inl hg
      · rw [hpc, if_neg hg] at h2
        have h4 : 0 < p.coyote - f.dt := by
          rcases lt_max_iff.1 h2 with h | h
          · exact absurd h (lt_irrefl 0)
          · exact h
        exact Or.inr (by linarith)
  · rw [hpg] at h2
    push_neg at h2
    have hgf : p.onGround = false := by
      cases hpo : p.onGround
      · rfl
      · exact absurd hpo h2.1
    have hc0 : (preJump f p).coyote = 0 := by
      refine le_antisymm h2.2 ?_
      rw [hpc, if_neg (by simp [hgf])]
      exact le_max_left _ _
    rw [hpj] at h3
    refine Or.inr (Or.inl ⟨by rw [hev, heq], hgf, h3,
      by rw [← hpb]; exact h1, ?_, by rw [hjl, heq]⟩)
    rw [hcoy, heq]
    exact hc0
  · refine Or.inr (Or.inr ⟨by rw [hev, heq], ?_, ?_, ?_⟩)
    · rw [hjl, heq]; exact hpj
    · rw [hcoy, heq]; exact hpc
    · rw [hbuf, heq]; exact hpb

theorem totalPotential_le (p : PlayerState) : totalPotential p ≤ 2 := by
  unfold totalPotential; split_ifs <;> omega

theorem groundPotential_le (p : PlayerState) : groundPotential p ≤ 1 := by
  unfold groundPotential; split_ifs <;> omega

theorem airPotential_le (p : PlayerState) : airPotential p ≤ 1 := by
  unfold airPotential; split_ifs <;> omega

theorem totalStep (g : ℚ) (f : Frame) (p : PlayerState)
    (hdt : 0 ≤ f.dt) (hpost : (stepFrame g f p).1.onGround = false) :
    jumpWeight (stepFrame g f p).2 + totalPotential (stepFrame g f p).1 ≤
      totalPotential p := by
  rcases stepSpec g f p hdt hpost with ⟨hev, hpre, _, hc, hj⟩ |
    ⟨hev, hg, hj0, _, hc, hj⟩ | ⟨hev, hj, hc, _⟩
  · rw [hev]
    have h1 : totalPotential (stepFrame g f p).1 = 1 := by
      unfold totalPotential
      rw [hpost, hc, hj]
      norm_num
    have h2 : totalPotential p = 2 := by
      unfold totalPotential; rw [if_pos hpre]
    rw [h1, h2]
    norm_num [jumpWeight]
  · rw [hev]
    have h1 : totalPotential (stepFrame g f p).1 = 0 := by
      unfold totalPotential
      rw [hpost, hc, hj]
      norm_num
    have h2 : 1 ≤ totalPotential p := by
      unfold totalPotential
      split_ifs with hA hB
      · omega
      · omega
    have hw : jumpWeight (some (-650) : Option ℚ) = 1 := rfl
    omega
  · rw [hev]
    have hw : jumpWeight (none : Option ℚ) = 0 := rfl
    rw [hw, Nat.zero_add]
    unfold totalPotential
    rw [hpost, hj, hc]
    by_cases hg : p.onGround = true
    · rw [if_pos hg,
        if_pos (Or.inr (by norm_num) : false = true ∨ (0:ℚ) < 18/100),
        if_pos (Or.inl hg)]
    · rw [if_neg hg]
      by_cases hmx : 0 < max 0 (p.coyote - f.dt)
      · have hcpos : 0 < p.coyote := by
          rcases lt_max_iff.1 hmx with h | h
          · exact absurd h (lt_irrefl 0)
          · linarith
        rw [if_pos (Or.inr hmx : false = true ∨ 0 < max 0 (p.coyote - f.dt)),
          if_pos (Or.inr hcpos)]
      · rw [if_neg (by simp [hmx] :
          ¬(false = true ∨ 0 < max 0 (p.coyote - f.dt)))]
        split_ifs <;> omega

theorem groundStep (g : ℚ) (f : Frame) (p : PlayerState)
    (hdt : 0 ≤ f.dt) (hpost : (stepFrame g f p).1.onGround = false) :
    groundJumpWeight (stepFrame g f p).2 +
      groundPotential (stepFrame g f p).1 ≤ groundPotential p := by
  rcases stepSpec g f p hdt hpost with ⟨hev, hpre, _, hc, hj⟩ |
    ⟨hev, hg, hj0, _, hc, hj⟩ | ⟨hev, hj, hc, _⟩
  · rw [hev]
    have hw : groundJumpWeight (some (-700) : Option ℚ) = 1 := rfl
    have h1 : groundPotential (stepFrame g f p).1 = 0 := by
      unfold groundPotential
      rw [hpost, hc]
      norm_num
    have h2 : groundPotential p = 1 := by
      unfold groundPotential; rw [if_pos hpre]
    omega
  · rw [hev]
    have hw : groundJumpWeight (some (-650) : Option ℚ) = 0 := by
      norm_num [groundJumpWeight]
    have h1 : groundPotential (stepFrame g f p).1 = 0 := by
      unfold groundPotential
      rw [hpost, hc]
      norm_num
    omega
  · rw [hev]
    have hw : groundJumpWeight (none : Option ℚ) = 0 := rfl
    rw [hw, Nat.zero_add]
    unfold groundPotential
    rw [hpost, hc]
    by_cases hg : p.onGround = true
    · rw [if_pos hg,
        if_pos (Or.inr (by norm_num) : false = true ∨ (0:ℚ) < 18/100),
        if_pos (Or.inl hg)]
    · rw [if_neg hg]
      by_cases hmx : 0 < max 0 (p.coyote - f.dt)
      · have hcpos : 0 < p.coyote := by
          rcases lt_max_iff.1 hmx with h | h
          · exact absurd h (lt_irrefl 0)
          · linarith
        rw [if_pos (Or.inr hmx : false = true ∨ 0 < max 0 (p.coyote - f.dt)),
          if_pos (Or.inr hcpos)]
      · rw [if_neg (by simp [hmx] :
          ¬(false = true ∨ 0 < max 0 (p.coyote - f.dt)))]
        split_ifs <;> omega

theorem airStep (g : ℚ) (f : Frame) (p : PlayerState)
    (hdt : 0 ≤ f.dt) (hpost : (stepFrame g f p).1.onGround = false) :
    airJumpWeight (stepFrame g f p).2 + airPotential (stepFrame g f p).1 ≤
      airPotential p := by
  rcases stepSpec g f p hdt hpost with ⟨hev, hpre, _, hc, hj⟩ |
    ⟨hev, hg, hj0, _, hc, hj⟩ | ⟨hev, hj, hc, _⟩
  · rw [hev]
    have hw : airJumpWeight (some (-700) : Option ℚ) = 0 := by
      norm_num [airJumpWeight]
    have h2 : airPotential p = 1 := by
      unfold airPotential
      rw [if_neg ?hD]
      case hD =>
        rintro ⟨ha, hb, _⟩
        rcases hpre with h | h
        · rw [ha] at h; cases h
        · linarith
    have h1 : airPotential (stepFrame g f p).1 ≤ 1 := airPotential_le _
    omega
  · rw [hev]
    have hw : airJumpWeight (some (-650) : Option ℚ) = 1 := rfl
    have h1 : airPotential (stepFrame g f p).1 = 0 := by
      unfold airPotential
      rw [if_pos ⟨hpost, le_of_eq hc, hj⟩]
    have h2 : airPotential p = 1 := by
      unfold airPotential
      rw [if_neg ?hD2]
      case hD2 =>
        rintro ⟨_, _, hz⟩
        omega
    omega
  · rw [hev]
    have hw : airJumpWeight (none : Option ℚ) = 0 := rfl
    by_cases hD : p.onGround = false ∧ p.coyote ≤ 0 ∧ p.jumpsLeft = 0
    · have h2 : airPotential p = 0 := by
        unfold airPotential; rw [if_pos hD]
      have h1 : airPotential (stepFrame g f p).1 = 0 := by
        unfold airPotential
        refine if_pos ⟨hpost, ?_, by rw [hj]; exact hD.2.2⟩
        rw [hc, if_neg (by simp [hD.1])]
        exact le_of_eq (max_eq_left (by linarith [hD.2.1]))
      omega
    · have h2 : airPotential p = 1 := by
        unfold airPotential; rw [if_neg hD]
      have h1 : airPotential (stepFrame g f p).1 ≤ 1 := airPotential_le _
      omega

theorem runCountBound (w : Option ℚ → ℕ) (φ : PlayerState → ℕ) (g : ℚ)
    (hstep : ∀ (p : PlayerState) (f : Frame), 0 ≤ f.dt →
      (stepFrame g f p).1.onGround = false →
      w (stepFrame g f p).2 + φ (stepFrame g f p).1 ≤ φ p) :
    ∀ (fs : List Frame) (p : PlayerState), (∀ f ∈ fs, 0 ≤ f.dt) →
      airborneRunB g p fs = true → runCount w g p fs ≤ φ p := by
  intro fs
  induction fs with
  | nil => intro p _ _; exact Nat.zero_le _
  | cons f fs ih =>
      intro p hdt hair
      rw [airborneRunB, Bool.and_eq_true, Bool.not_eq_true'] at hair
      have hd : 0 ≤ f.dt := hdt f (List.mem_cons_self f fs)
      have step1 := hstep p f hd hair.1
      have step2 := ih (stepFrame g f p).1
        (fun x hx => hdt x (List.mem_cons_of_mem f hx)) hair.2
      calc runCount w g p (f :: fs)
          = w (stepFrame g f p).2 + runCount w g (stepFrame g f p).1 fs := rfl
        _ ≤ w (stepFrame g f p).2 + φ (stepFrame g f p).1 :=
            Nat.add_le_add_left step2 _
        _ ≤ φ p := step1

theorem jlStep (g : ℚ) (f : Frame) (p : PlayerState) (h : p.jumpsLeft ≤ 2) :
    (stepFrame g f p).1.jumpsLeft ≤ 2 := by
  rcases stepFrame_jumpsLeft_cases g f p with h2 | h2
  · omega
  · rw [h2]
    rcases jumpResolveSpec (preJump f p) with ⟨_, _, heq⟩ | ⟨_, _, _, heq⟩ |
      ⟨_, heq⟩
    · rw [heq]; exact one_le_two
    · rw [heq]; exact Nat.zero_le 2
    · rw [heq]
      have := preJump_jumpsLeft f p
      calc (preJump f p, (none : Option ℚ)).1.jumpsLeft
          = p.jumpsLeft := this
        _ ≤ 2 := h

theorem jlAll (g : ℚ) (p : PlayerState) (fs : List Frame)
    (h : p.jumpsLeft ≤ 2) : ∀ q ∈ runStates g p fs, q.jumpsLeft ≤ 2 := by
  induction fs generalizing p with
  | nil => intro q hq; cases hq
  | cons f fs ih =>
      intro q hq
      rw [runStates] at hq
      rcases List.mem_cons.1 hq with rfl | hq
      · exact jlStep g f p h
      · exact ih (stepFrame g f p).1 (jlStep g f p h) q hq

theorem sumDt_cons (f : Frame) (fs : List Frame) :
    sumDt (f :: fs) = f.dt + sumDt fs := by
  simp [sumDt]

theorem sumDt_nonneg (fs : List Frame) (h : ∀ f ∈ fs, 0 ≤ f.dt) :
    0 ≤ sumDt fs := by
  unfold sumDt
  apply List.sum_nonneg
  intro x hx
  rcases List.mem_map.1 hx with ⟨f, hf, rfl⟩
  exact h f hf

theorem max_zero_sub_chain (c a b : ℚ) (hb : 0 ≤ b) :
    max 0 (max 0 (c - a) - b) = max 0 (c - (a + b)) := by
  rcases le_or_lt (c - a) 0 with h | h
  · rw [max_eq_left h, zero_sub, max_eq_left (by linarith),
      max_eq_left (by linarith)]
  · rw [max_eq_right (le_of_lt h), sub_sub]

theorem stepCoyoteReset (g : ℚ) (f : Frame) (q : PlayerState)
    (hq : q.onGround = true) (hev : (stepFrame g f q).2 = none) :
    (stepFrame g f q).1.coyote = 18/100 := by
  rw [stepFrame_coyote,
    stateOfEvNone f q (by rw [← stepFrame_ev]; exact hev),
    preJump_coyote, if_pos hq]

theorem stepCoyoteDecay (g : ℚ) (f : Frame) (q : PlayerState)
    (hq : q.onGround = false) (hev : (stepFrame g f q).2 = none) :
    (stepFrame g f q).1.coyote = max 0 (q.coyote - f.dt) := by
  rw [stepFrame_coyote,
    stateOfEvNone f q (by rw [← stepFrame_ev]; exact hev),
    preJump_coyote, if_neg (by simp [hq])]

theorem stepBufDecay (g : ℚ) (f : Frame) (q : PlayerState)
    (hev : (stepFrame g f q).2 = none) :
    (stepFrame g f q).1.jumpBuf =
      max 0 ((if f.jump = true then 18/100 else q.jumpBuf) - f.dt) := by
  rw [stepFrame_jumpBuf,
    stateOfEvNone f q (by rw [← stepFrame_ev]; exact hev),
    preJump_jumpBuf]

theorem coastRun (g : ℚ) : ∀ (fs : List Frame) (p : PlayerState),
    p.onGround = false → p.jumpBuf = 0 → 0 ≤ p.coyote →
    (∀ f ∈ fs, f.jump = false ∧ 0 ≤ f.dt) →
    (∀ q ∈ runStates g p fs, q.onGround = false) →
    (runP g p fs).onGround = false ∧ (runP g p fs).jumpBuf = 0 ∧
    (runP g p fs).coyote = max 0 (p.coyote - sumDt fs) := by
  intro fs
  induction fs with
  | nil =>
      intro p hg hb hc _ _
      refine ⟨hg, hb, ?_⟩
      show p.coyote = max 0 (p.coyote - sumDt [])
      rw [show sumDt [] = 0 from rfl, sub_zero, max_eq_right hc]
  | cons f fs ih =>
      intro p hg hb hc hfs hair
      have hf := hfs f (List.mem_cons_self f fs)
      have hpost : (stepFrame g f p).1.onGround = false := by
        apply hair
        rw [runStates]
        exact List.mem_cons_self _ _
      have hev : (stepFrame g f p).2 = none := by
        rcases stepSpec g f p hf.2 hpost with ⟨_, _, hbp, _, _⟩ |
          ⟨_, _, _, hbp, _, _⟩ | ⟨hev, _, _, _⟩
        · exfalso
          rw [hf.1] at hbp
          rw [if_neg (by simp), hb] at hbp
          rcases lt_max_iff.1 hbp with h | h
          · exact lt_irrefl 0 h
          · linarith [hf.2]
        · exfalso
          rw [hf.1] at hbp
          rw [if_neg (by simp), hb] at hbp
          rcases lt_max_iff.1 hbp with h | h
          · exact lt_irrefl 0 h
          · linarith [hf.2]
        · exact hev
      have hb2 : (stepFrame g f p).1.jumpBuf = 0 := by
        rw [stepBufDecay g f p hev, hf.1, if_neg (by simp), hb]
        exact max_eq_left (by linarith [hf.2])
      have hc2 : (stepFrame g f p).1.coyote = max 0 (p.coyote - f.dt) :=
        stepCoyoteDecay g f p hg hev
      have hcnn : 0 ≤ (stepFrame g f p).1.coyote := by
        rw [hc2]; exact le_max_left _ _
      have hair2 : ∀ q ∈ runStates g (stepFrame g f p).1 fs,
          q.onGround = false := by
        intro q hq
        apply hair
        rw [runStates]
        exact List.mem_cons_of_mem _ hq
      obtain ⟨ha, hbb, hcc⟩ := ih (stepFrame g f p).1 hpost hb2 hcnn
        (fun x hx => hfs x (List.mem_cons_of_mem f hx)) hair2
      refine ⟨ha, hbb, ?_⟩
      show (runP g (stepFrame g f p).1 fs).coyote = _
      rw [hcc, hc2, max_zero_sub_chain p.coyote f.dt (sumDt fs)
        (sumDt_nonneg fs (fun x hx => (hfs x (List.mem_cons_of_mem f hx)).2)),
        sumDt_cons]

theorem requestStepEv (g : ℚ) (f : Frame) (p : PlayerState)
    (hj : f.jump = true) (hg : p.onGround = false) :
    (0 < max 0 (p.coyote - f.dt) → 0 < max 0 ((18:ℚ)/100 - f.dt) →
      (stepFrame g f p).2 = some (-700)) ∧
    (max 0 (p.coyote - f.dt) = 0 → (stepFrame g f p).2 ≠ some (-700)) := by
  have hpc := preJump_coyote f p
  have hpb := preJump_jumpBuf f p
  have hpg := preJump_onGround f p
  constructor
  · intro h1 h2
    have hb : 0 < (preJump f p).jumpBuf := by
      rw [hpb, hj, if_pos rfl]
      exact h2
    have hcpos : 0 < (preJump f p).coyote := by
      rw [hpc, if_neg (by simp [hg])]
      exact h1
    rw [stepFrame_ev]
    unfold jumpResolve
    rw [if_pos hb, if_pos (Or.inr hcpos)]
  · intro h0 hcontra
    rw [stepFrame_ev] at hcontra
    unfold jumpResolve at hcontra
    by_cases hbp : 0 < (preJump f p).jumpBuf
    · rw [if_pos hbp] at hcontra
      have hcond : ¬((preJump f p).onGround = true ∨
          0 < (preJump f p).coyote) := by
        rintro (hh | hh)
        · rw [hpg, hg] at hh; cases hh
        · rw [hpc, if_neg (by simp [hg]), h0] at hh
          exact lt_irrefl 0 hh
      rw [if_neg hcond] at hcontra
      split_ifs at hcontra <;> simp at hcontra
    · rw [if_neg hbp] at hcontra
      simp at hcontra

theorem groundedStepEv (g : ℚ) (f : Frame) (p : PlayerState)
    (hg : p.onGround = true)
    (hb : 0 < max 0 ((if f.jump = true then (18:ℚ)/100 else p.jumpBuf) -
      f.dt)) :
    (stepFrame g f p).2 = some (-700) := by
  have hbuf : 0 < (preJump f p).jumpBuf := by
    rw [preJump_jumpBuf]; exact hb
  rw [stepFrame_ev]
  unfold jumpResolve
  rw [if_pos hbuf, if_pos (Or.inl (by rw [preJump_onGround]; exact hg))]

theorem deadAirStepEv (g : ℚ) (f : Frame) (p : PlayerState)
    (hg : p.onGround = false) (hc : p.coyote ≤ f.dt) (hjl : p.jumpsLeft = 0) :
    (stepFrame g f p).2 = none := by
  rw [stepFrame_ev]
  unfold jumpResolve
  have hco : ¬((preJump f p).onGround = true ∨ 0 < (preJump f p).coyote) := by
    rintro (hh | hh)
    · rw [preJump_onGround, hg] at hh; cases hh
    · rw [preJump_coyote, if_neg (by simp [hg]),
        max_eq_left (by linarith)] at hh
      exact lt_irrefl 0 hh
  have hjl2 : ¬(0 < (preJump f p).jumpsLeft) := by
    rw [preJump_jumpsLeft, hjl]
    exact lt_irrefl 0
  by_cases hbp : 0 < (preJump f p).jumpBuf
  · rw [if_pos hbp, if_neg hco, if_neg hjl2]
  · rw [if_neg hbp]

theorem le_foldl_max (b : ℤ) (l : List ℤ) : b ≤ l.foldl max b := by
  induction l generalizing b with
  | nil => exact le_refl b
  | cons a l ih => exact le_trans (le_max_left b a) (ih (max b a))

theorem runsHi_eq (hi0 : ℤ) (scores : List ℚ) :
    runsHi hi0 scores = (scores.map fun q => ⌊q⌋).foldl max hi0 := by
  induction scores generalizing hi0 with
  | nil => rfl
  | cons a l ih =>
      show runsHi (gameOverHi hi0 a) l = (l.map fun q => ⌊q⌋).foldl max (max hi0 ⌊a⌋)
      exact ih (max hi0 ⌊a⌋)

/-! ## C2: the difficulty table -/

/-- C2: `moodParams` is a pure total function of the mood returning exactly the
numeric table of section 4.1; for every mood `pillarRate + droneRate < 1`;
`spawnRateBase` is ordered Happy ≥ Calm ≥ Stressed and `droneRate` is ordered
Happy ≤ Stressed. -/
theorem c2_mood_params_table :
    (moodParams .happy).speedBase = 300 ∧ (moodParams .happy).grav = 1480 ∧
    (moodParams .happy).spawnRateBase = 11/10 ∧ (moodParams .happy).gapBias = 40 ∧
    (moodParams .happy).coinRate = 15/10 ∧ (moodParams .happy).droneRate = 18/100 ∧
    (moodParams .happy).pillarRate = 46/100 ∧
    (moodParams .calm).speedBase = 330 ∧ (moodParams .calm).grav = 1520 ∧
    (moodParams .calm).spawnRateBase = 95/100 ∧ (moodParams .calm).gapBias = 10 ∧
    (moodParams .calm).coinRate = 1 ∧ (moodParams .calm).droneRate = 25/100 ∧
    (moodParams .calm).pillarRate = 45/100 ∧
    (moodParams .stressed).speedBase = 360 ∧ (moodParams .stressed).grav = 1560 ∧
    (moodParams .stressed).spawnRateBase = 82/100 ∧
    (moodParams .stressed).gapBias = -20 ∧
    (moodParams .stressed).coinRate = 85/100 ∧
    (moodParams .stressed).droneRate = 33/100 ∧
    (moodParams .stressed).pillarRate = 40/100 ∧
    (∀ m : Mood, (moodParams m).pillarRate + (moodParams m).droneRate < 1) ∧
    (moodParams .calm).spawnRateBase ≤ (moodParams .happy).spawnRateBase ∧
    (moodParams .stressed).spawnRateBase ≤ (moodParams .calm).spawnRateBase ∧
    (moodParams .happy).droneRate ≤ (moodParams .stressed).droneRate := by
  refine ⟨rfl, rfl, rfl, rfl, rfl, rfl, rfl, rfl, rfl, rfl, rfl, rfl, rfl, rfl,
    rfl, rfl, rfl, rfl, rfl, rfl, rfl, ?_, ?_, ?_, ?_⟩
  · intro m; cases m <;> norm_num [moodParams]
  · norm_num [moodParams]
  · norm_num [moodParams]
  · norm_num [moodParams]

/-! ## C4: the frame-delta clamp -/

/-- C4 counterexample: the loop computes `dt = Math.min(0.033, raw)`, so a
negative raw delta passes through unclamped — `dt` is not confined to
`[0, 0.033]` and negative values reach the physics update. -/
theorem c4_counterexample : loopDt (-1) = -1 ∧ loopDt (-1) < 0 := by
  constructor <;> norm_num [loopDt]

/-- C4 amended: `dt` is only capped above at `0.033`; a nonnegative raw delta
lands in `[0, 0.033]`, but a negative raw delta passes through unchanged
(there is no lower clamp). -/
theorem c4_amended_dt_cap (raw : ℚ) :
    loopDt raw ≤ 33/1000 ∧
    (0 ≤ raw → 0 ≤ loopDt raw ∧ loopDt raw ≤ 33/1000) ∧
    (raw < 0 → loopDt raw = raw) := by
  refine ⟨min_le_left _ _, fun h => ⟨le_min (by norm_num) h, min_le_left _ _⟩,
    fun h => min_eq_right (le_of_lt (lt_trans h (by norm_num)))⟩

/-- Witness for the amended C4 theorem at `raw = 1/100`. -/
theorem c4_amended_dt_cap_witness :
    loopDt (1/100) ≤ 33/1000 ∧ 0 ≤ loopDt (1/100) :=
  ⟨(c4_amended_dt_cap (1/100)).1,
   ((c4_amended_dt_cap (1/100)).2.1 (by norm_num)).1⟩

/-! ## C7: monotonic high score -/

/-- C7: the `gameOver` transition folds `max` with the floored score into the
high score; hence appending a run updates `highScore` to
`max(previous, floor(score))`, the high score never decreases across runs, and
after any sequence of completed runs it equals the maximum floored score over
all runs relative to the initial persisted value. -/
theorem c7_monotonic_high_score (hi0 : ℤ) (scores : List ℚ) (s : ℚ) :
    (∀ g : GameState, (gameOver g).hiScore = gameOverHi g.hiScore g.score) ∧
    runsHi hi0 (scores ++ [s]) = max (runsHi hi0 scores) ⌊s⌋ ∧
    runsHi hi0 scores ≤ runsHi hi0 (scores ++ [s]) ∧
    hi0 ≤ runsHi hi0 scores ∧
    runsHi hi0 scores = (scores.map fun q => ⌊q⌋).foldl max hi0 := by
  have happ : runsHi hi0 (scores ++ [s]) = max (runsHi hi0 scores) ⌊s⌋ := by
    simp [runsHi, List.foldl_append, gameOverHi]
  refine ⟨fun g => rfl, happ, ?_, ?_, runsHi_eq hi0 scores⟩
  · rw [happ]; exact le_max_left _ _
  · rw [runsHi_eq]; exact le_foldl_max hi0 _

/-! ## C10: the game-over frame effect -/

/-- C10: a collision-triggered `gameOver` modifies only the `playing` flag
(set to false), the persisted high score, and the screen-shake bookkeeping;
score, run time, player state, obstacles, coins, decoration and particles are
left unchanged. -/
theorem c10_game_over_frame_effect (s : GameState) :
    (gameOver s).playing = false ∧
    (gameOver s).hiScore = max s.hiScore ⌊s.score⌋ ∧
    (gameOver s).shakeMag = 260/100 ∧ (gameOver s).shakeTime = 25/100 ∧
    (gameOver s).score = s.score ∧ (gameOver s).runTime = s.runTime ∧
    (gameOver s).player = s.player ∧ (gameOver s).obstacles = s.obstacles ∧
    (gameOver s).coins = s.coins ∧ (gameOver s).decor = s.decor ∧
    (gameOver s).particles = s.particles ∧ (gameOver s).paused = s.paused :=
  ⟨rfl, rfl, rfl, rfl, rfl, rfl, rfl, rfl, rfl, rfl, rfl, rfl⟩

/-! ## C1: collision termination -/

/-- C1: in any frame whose collision pass finds a player/obstacle overlap
(rectangle overlap for blocks and gates, circle-vs-rectangle for drones), the
pass short-circuits into a single `gameOver` (the coin loop is skipped),
`playing` is false at the end of the frame, and no further score accrues
during the remainder of the frame: the frame ends with the score the collision
pass saw, no coin is credited, and no pickup particles are emitted. -/
theorem c1_collision_termination (sp : ℚ → ℚ → List Particle) (dt : ℚ)
    (s : GameState)
    (h : s.obstacles.any (obstacleHit (playerRect s.player)) = true) :
    handleCollisions sp s = gameOver s ∧
    (updateTail sp dt s).playing = false ∧
    (updateTail sp dt s).score = s.score ∧
    (updateTail sp dt s).hiScore = max s.hiScore ⌊s.score⌋ ∧
    (updateTail sp dt s).particles =
      (s.particles.map (updateParticle dt)).filter keepParticle ∧
    (updateTail sp dt s).coins = s.coins.filter keepCoin := by
  have h1 : handleCollisions sp s = gameOver s := by
    simp only [handleCollisions, h, if_true]
  refine ⟨h1, ?_, ?_, ?_, ?_, ?_⟩ <;>
    simp [updateTail, h1, gameOver]

/-- Witness for C1: a concrete frame where the player's rectangle overlaps a
block; the frame ends not playing and with the score intact. -/
theorem c1_collision_termination_witness :
    (updateTail (fun _ _ => []) (1/100)
      { playing := true, paused := false, score := 7/2, hiScore := 2,
        runTime := 5,
        player := { initialPlayer with y := 428, onGround := true },
        obstacles := [.block 160 400 50 80], coins := [], decor := [],
        particles := [], shakeTime := 0, shakeMag := 0 }).playing = false ∧
    (updateTail (fun _ _ => []) (1/100)
      { playing := true, paused := false, score := 7/2, hiScore := 2,
        runTime := 5,
        player := { initialPlayer with y := 428, onGround := true },
        obstacles := [.block 160 400 50 80], coins := [], decor := [],
        particles := [], shakeTime := 0, shakeMag := 0 }).score = 7/2 := by
  have h := c1_collision_termination (fun _ _ => []) (1/100)
    { playing := true, paused := false, score := 7/2, hiScore := 2,
      runTime := 5,
      player := { initialPlayer with y := 428, onGround := true },
      obstacles := [.block 160 400 50 80], coins := [], decor := [],
      particles := [], shakeTime := 0, shakeMag := 0 }
    (by norm_num [obstacleHit, playerRect, rectOverlap, initialPlayer, VH, groundY])
  exact ⟨h.2.1, h.2.2.1⟩

/-! ## C8: spawner timing and pattern mix -/

/-- C8: each frame the spawn timer accumulates `dt`; the interval is
`rate = clamp(spawnRateBase - runTime*0.006, 0.55, 1.15)`; when the
accumulated timer reaches `rate` the timer resets to zero and exactly one
pattern is chosen from the single draw `r` with cumulative cutoffs
`r < pillarRate` → block pattern, `pillarRate ≤ r < pillarRate + droneRate` →
drone, else gap-with-bridge, and a coin arc is independently spawned exactly
when the coin draw satisfies `rc < 0.75·coinRate`; otherwise the timer keeps
the accumulated value and nothing spawns. -/
theorem c8_spawner_timing (m : Mood) (runTime t dt r rc rh : ℚ) :
    (clamp ((moodParams m).spawnRateBase - runTime * (6/1000)) (55/100)
        (115/100) ≤ t + dt →
      (spawnLogic (moodParams m) runTime t dt r rc rh).timeSinceSpawn = 0 ∧
      (r < (moodParams m).pillarRate →
        (spawnLogic (moodParams m) runTime t dt r rc rh).pattern =
          some .blockPattern) ∧
      ((moodParams m).pillarRate ≤ r →
        r < (moodParams m).pillarRate + (moodParams m).droneRate →
        (spawnLogic (moodParams m) runTime t dt r rc rh).pattern =
          some .drone) ∧
      ((moodParams m).pillarRate + (moodParams m).droneRate ≤ r →
        (spawnLogic (moodParams m) runTime t dt r rc rh).pattern =
          some .gapWithBridge) ∧
      ((spawnLogic (moodParams m) runTime t dt r rc rh).coinArc = true ↔
        rc < 3/4 * (moodParams m).coinRate)) ∧
    (t + dt < clamp ((moodParams m).spawnRateBase - runTime * (6/1000))
        (55/100) (115/100) →
      (spawnLogic (moodParams m) runTime t dt r rc rh).timeSinceSpawn = t + dt ∧
      (spawnLogic (moodParams m) runTime t dt r rc rh).pattern = none ∧
      (spawnLogic (moodParams m) runTime t dt r rc rh).coinArc = false) := by
  have hdrone : (0:ℚ) ≤ (moodParams m).droneRate := by
    cases m <;> norm_num [moodParams]
  constructor
  · intro hge
    refine ⟨?_, ?_, ?_, ?_, ?_⟩
    · simp only [spawnLogic, if_pos hge]
    · intro hr; simp only [spawnLogic, if_pos hge, if_pos hr]
    · intro hr1 hr2
      simp only [spawnLogic, if_pos hge, if_neg (not_lt.2 hr1), if_pos hr2]
    · intro hr
      have h1 : ¬ r < (moodParams m).pillarRate :=
        not_lt.2 (le_trans (le_add_of_nonneg_right hdrone) hr)
      simp only [spawnLogic, if_pos hge, if_neg h1, if_neg (not_lt.2 hr)]
    · simp only [spawnLogic, if_pos hge, decide_eq_true_eq]
  · intro hlt
    exact ⟨by simp only [spawnLogic, if_neg (not_le.2 hlt)],
           by simp only [spawnLogic, if_neg (not_le.2 hlt)],
           by simp only [spawnLogic, if_neg (not_le.2 hlt)]⟩

/-- Witness for C8 at calm mood: the accumulated timer `0.5 + 0.5` exceeds the
clamped rate, the draw `r = 0.5` falls in the drone band
(`0.45 ≤ 0.5 < 0.45 + 0.25`), the coin draw `0.9` misses `0.75·1.0`. -/
theorem c8_spawner_timing_witness :
    (spawnLogic (moodParams .calm) 0 (1/2) (1/2) (1/2) (9/10) (1/2)).pattern =
      some SpawnPattern.drone ∧
    (spawnLogic (moodParams .calm) 0 (1/2) (1/2) (1/2) (9/10) (1/2)).coinArc =
      false := by
  have h := c8_spawner_timing .calm 0 (1/2) (1/2) (1/2) (9/10) (1/2)
  have hge : clamp ((moodParams .calm).spawnRateBase - 0 * (6/1000)) (55/100)
      (115/100) ≤ (1/2 : ℚ) + 1/2 := by
    norm_num [clamp, moodParams]
  have h1 := h.1 hge
  refine ⟨h1.2.2.1 (by norm_num [moodParams]) (by norm_num [moodParams]), ?_⟩
  have := h1.2.2.2.2
  simp only [moodParams] at this ⊢
  rw [← Bool.not_eq_true]
  intro hc
  exact absurd (this.1 hc) (by norm_num)

/-! ## C9: end-of-frame pruning -/

/-- C9 counterexample: a block at `x = -181` (so `x < -180`, which the claim
says is pruned) with width 50 is retained by the code, because the filter
tests the right edge `x + w > -180`, not `x`. -/
theorem c9_counterexample :
    keepObstacle (.block (-181) 400 50 80) = true ∧ ((-181 : ℚ) < -180) := by
  constructor
  · simp only [keepObstacle, Bool.and_eq_true, decide_eq_true_eq]
    norm_num [VH]
  · norm_num

/-- C9 amended: end-of-frame pruning retains exactly the entities passing the
right-edge tests of the code — obstacles with `x + w > -180` (`x > -180` for
drones, whose missing `w` defaults to 0) and `y < VH + 400`, coins with
`x + r > -160`, decoration with `x + w > -120`, particles with
`t < lifespan` — all comparisons non-strict on the removal side; every other
entity is retained. -/
theorem c9_amended_pruning (sp : ℚ → ℚ → List Particle) (dt : ℚ)
    (s : GameState) :
    (updateTail sp dt s).obstacles =
      ((handleCollisions sp s).obstacles).filter keepObstacle ∧
    (updateTail sp dt s).coins =
      ((handleCollisions sp s).coins).filter keepCoin ∧
    (updateTail sp dt s).decor =
      ((handleCollisions sp s).decor).filter keepDecor ∧
    (updateTail sp dt s).particles =
      (((handleCollisions sp s).particles).map (updateParticle dt)).filter
        keepParticle ∧
    (∀ o, o ∈ (updateTail sp dt s).obstacles ↔
      o ∈ (handleCollisions sp s).obstacles ∧ keepObstacle o = true) ∧
    (∀ x y w h : ℚ,
      keepObstacle (.block x y w h) = true ↔ -180 < x + w ∧ y < VH + 400) ∧
    (∀ x y w h : ℚ,
      keepObstacle (.gate x y w h) = true ↔ -180 < x + w ∧ y < VH + 400) ∧
    (∀ x y r vy ph an : ℚ,
      keepObstacle (.drone x y r vy ph an) = true ↔
        -180 < x ∧ y < VH + 400) ∧
    (∀ c : Coin, keepCoin c = true ↔ -160 < c.x + c.r) ∧
    (∀ d : Decor, keepDecor d = true ↔ -120 < d.x + d.w) ∧
    (∀ pt : Particle, keepParticle pt = true ↔ pt.t < pt.lifespan) := by
  refine ⟨rfl, rfl, rfl, rfl, fun o => ?_, fun x y w h => ?_, fun x y w h => ?_,
    fun x y r vy ph an => ?_, fun c => ?_, fun d => ?_, fun pt => ?_⟩
  · exact List.mem_filter
  · simp [keepObstacle]
  · simp [keepObstacle]
  · simp [keepObstacle]
  · simp [keepCoin]
  · simp [keepDecor]
  · simp [keepParticle]

/-! ## C3: the jump budget -/

/-- C3: for every sequence of frames and jump requests, `jumpsLeft` never
leaves `[0, 2]` (it is a natural number bounded by 2 along every run starting
within the range), and along any stretch of frames whose post-states are all
airborne — i.e. strictly between two grounded states — at most two jumps fire
in total, at most one of them a ground-or-coyote jump and at most one an air
jump. -/
theorem c3_jump_budget (g : ℚ) (p : PlayerState) (fs : List Frame)
    (hdt : ∀ f ∈ fs, 0 ≤ f.dt) :
    (p.jumpsLeft ≤ 2 → ∀ q ∈ runStates g p fs, q.jumpsLeft ≤ 2) ∧
    (airborneRunB g p fs = true →
      runCount jumpWeight g p fs ≤ 2 ∧
      runCount groundJumpWeight g p fs ≤ 1 ∧
      runCount airJumpWeight g p fs ≤ 1) := by
  refine ⟨fun h => jlAll g p fs h, fun hair => ⟨?_, ?_, ?_⟩⟩
  · exact le_trans (runCountBound jumpWeight totalPotential g
      (fun q f hd hp => totalStep g f q hd hp) fs p hdt hair)
      (totalPotential_le p)
  · exact le_trans (runCountBound groundJumpWeight groundPotential g
      (fun q f hd hp => groundStep g f q hd hp) fs p hdt hair)
      (groundPotential_le p)
  · exact le_trans (runCountBound airJumpWeight airPotential g
      (fun q f hd hp => airStep g f q hd hp) fs p hdt hair)
      (airPotential_le p)

/-- Witness for C3: from the initial (airborne) player, two frames with jump
requests fire the air jump at most once and at most two jumps in total. -/
theorem c3_jump_budget_witness :
    runCount jumpWeight 1520 initialPlayer
      [⟨⟨false, false⟩, 1/100, true⟩, ⟨⟨false, false⟩, 1/100, true⟩] ≤ 2 ∧
    runCount groundJumpWeight 1520 initialPlayer
      [⟨⟨false, false⟩, 1/100, true⟩, ⟨⟨false, false⟩, 1/100, true⟩] ≤ 1 ∧
    runCount airJumpWeight 1520 initialPlayer
      [⟨⟨false, false⟩, 1/100, true⟩, ⟨⟨false, false⟩, 1/100, true⟩] ≤ 1 ∧
    (∀ q ∈ runStates 1520 initialPlayer
      [⟨⟨false, false⟩, 1/100, true⟩, ⟨⟨false, false⟩, 1/100, true⟩],
      q.jumpsLeft ≤ 2) := by
  have hdtp : ∀ f ∈ [(⟨⟨false, false⟩, 1/100, true⟩ : Frame),
      ⟨⟨false, false⟩, 1/100, true⟩], 0 ≤ f.dt := by
    intro f hf
    simp only [List.mem_cons, List.not_mem_nil, or_false] at hf
    rcases hf with rfl | rfl <;> norm_num
  have h := c3_jump_budget 1520 initialPlayer
    [⟨⟨false, false⟩, 1/100, true⟩, ⟨⟨false, false⟩, 1/100, true⟩] hdtp
  have hair : airborneRunB 1520 initialPlayer
      [⟨⟨false, false⟩, 1/100, true⟩, ⟨⟨false, false⟩, 1/100, true⟩] =
      true := by
    norm_num [airborneRunB, stepFrame, handlePlayer, landStep, jumpResolve,
      preJump, frameTimers, applyRequest, initialPlayer, clamp, groundY, VH,
      VW, max_def, min_def]
  obtain ⟨ht, hgr, hal⟩ := h.2 hair
  exact ⟨ht, hgr, hal, h.1 (by norm_num [initialPlayer])⟩

/-! ## C5: the coyote-time window -/

/-- C5: the coyote timer is reset to `0.18` on every grounded frame and decays
by `dt` on every airborne frame (stated for frames in which no jump fires,
which otherwise consume the timer); consequently, starting from the moment the
player leaves the ground with a full coyote window, a jump request processed
after total airborne time `τ < 0.18 s` still fires as a ground jump
(`doJump(-700)`), while a request processed at `τ ≥ 0.18 s` (in particular at
`0.19 s`) with no intervening ground contact does not fire as a ground
jump. -/
theorem c5_coyote_window (g : ℚ) (p : PlayerState) (fs : List Frame)
    (fl : Frame) (hg : p.onGround = false) (hc : p.coyote = 18/100)
    (hb : p.jumpBuf = 0) (hfs : ∀ f ∈ fs, f.jump = false ∧ 0 ≤ f.dt)
    (hair : ∀ q ∈ runStates g p fs, q.onGround = false)
    (hj : fl.jump = true) (hdtl : 0 ≤ fl.dt) :
    (∀ (q : PlayerState) (f : Frame), q.onGround = true →
      (stepFrame g f q).2 = none → (stepFrame g f q).1.coyote = 18/100) ∧
    (∀ (q : PlayerState) (f : Frame), q.onGround = false →
      (stepFrame g f q).2 = none →
      (stepFrame g f q).1.coyote = max 0 (q.coyote - f.dt)) ∧
    (sumDt fs + fl.dt < 18/100 →
      (stepFrame g fl (runP g p fs)).2 = some (-700)) ∧
    (18/100 ≤ sumDt fs + fl.dt →
      (stepFrame g fl (runP g p fs)).2 ≠ some (-700)) := by
  obtain ⟨hgn, hbn, hcn⟩ := coastRun g fs p hg hb (by rw [hc]; norm_num)
    hfs hair
  have hsum : 0 ≤ sumDt fs :=
    sumDt_nonneg fs (fun f hf => (hfs f hf).2)
  have hch : max 0 ((runP g p fs).coyote - fl.dt) =
      max 0 ((18:ℚ)/100 - (sumDt fs + fl.dt)) := by
    rw [hcn, hc, max_zero_sub_chain _ _ _ hdtl]
  refine ⟨fun q f hq he => stepCoyoteReset g f q hq he,
    fun q f hq he => stepCoyoteDecay g f q hq he, ?_, ?_⟩
  · intro hτ
    refine (requestStepEv g fl (runP g p fs) hj hgn).1 ?_ ?_
    · rw [hch]
      exact lt_max_iff.2 (Or.inr (by linarith))
    · exact lt_max_iff.2 (Or.inr (by linarith))
  · intro hτ
    refine (requestStepEv g fl (runP g p fs) hj hgn).2 ?_
    rw [hch]
    exact max_eq_left (by linarith)

/-- Witness for C5: with full coyote window at takeoff, one airborne frame of
`0.05 s` followed by a request frame of `0.05 s` (total `0.1 s < 0.18 s`)
still fires the ground jump `doJump(-700)`. -/
theorem c5_coyote_window_witness :
    (stepFrame 1520 ⟨⟨false, false⟩, 1/20, true⟩
      (runP 1520 { initialPlayer with coyote := 18/100 }
        [⟨⟨false, false⟩, 1/20, false⟩])).2 = some (-700) := by
  have hfs : ∀ f ∈ [(⟨⟨false, false⟩, 1/20, false⟩ : Frame)],
      f.jump = false ∧ 0 ≤ f.dt := by
    intro f hf
    simp only [List.mem_singleton] at hf
    subst hf
    exact ⟨rfl, by norm_num⟩
  have hair : ∀ q ∈ runStates 1520 { initialPlayer with coyote := 18/100 }
      [⟨⟨false, false⟩, 1/20, false⟩], q.onGround = false := by
    norm_num [runStates, stepFrame, handlePlayer, landStep, jumpResolve,
      preJump, frameTimers, applyRequest, initialPlayer, clamp, groundY, VH,
      VW, max_def, min_def]
  exact (c5_coyote_window 1520 { initialPlayer with coyote := 18/100 }
    [⟨⟨false, false⟩, 1/20, false⟩] ⟨⟨false, false⟩, 1/20, true⟩
    rfl rfl rfl hfs hair rfl (by norm_num)).2.2.1 (by norm_num [sumDt])

/-! ## C6: jump buffering -/

/-- C6: a jump request sets the jump-buffer timer to `0.18 s`; the buffer
decays by `dt` each frame (stated for frames in which no jump consumes it);
and a request still buffered when the player lands fires as a ground jump on
the first update after the grounded state is reached, provided the buffer is
still positive there — here: the player is airborne out of coyote range with
no air jump left, the landing frame itself fires no jump, and the next frame
fires `doJump(-700)`. -/
theorem c6_jump_buffering (g dt1 dt2 : ℚ) (i1 i2 : Input) (p : PlayerState)
    (hg : p.onGround = false) (hc : p.coyote ≤ dt1) (hjl : p.jumpsLeft = 0)
    (hdt2 : 0 ≤ dt2) (hbuf : dt1 + dt2 < p.jumpBuf)
    (hland : (stepFrame g ⟨i1, dt1, false⟩ p).1.onGround = true) :
    (∀ q : PlayerState, (applyRequest true q).jumpBuf = 18/100) ∧
    (∀ (q : PlayerState) (f : Frame), (stepFrame g f q).2 = none →
      (stepFrame g f q).1.jumpBuf =
        max 0 ((if f.jump = true then 18/100 else q.jumpBuf) - f.dt)) ∧
    (stepFrame g ⟨i1, dt1, false⟩ p).2 = none ∧
    (stepFrame g ⟨i2, dt2, false⟩ (stepFrame g ⟨i1, dt1, false⟩ p).1).2 =
      some (-700) := by
  have hev1 : (stepFrame g ⟨i1, dt1, false⟩ p).2 = none :=
    deadAirStepEv g ⟨i1, dt1, false⟩ p hg hc hjl
  have hbuf1 : (stepFrame g ⟨i1, dt1, false⟩ p).1.jumpBuf =
      p.jumpBuf - dt1 := by
    rw [stepBufDecay g _ p hev1]
    have hjf : (⟨i1, dt1, false⟩ : Frame).jump = false := rfl
    rw [hjf, if_neg (by simp)]
    exact max_eq_right (by linarith)
  refine ⟨fun q => by simp [applyRequest], fun q f he => stepBufDecay g f q he,
    hev1, ?_⟩
  apply groundedStepEv g ⟨i2, dt2, false⟩ _ hland
  have hjf2 : (⟨i2, dt2, false⟩ : Frame).jump = false := rfl
  rw [hjf2, if_neg (by simp), hbuf1]
  exact lt_max_iff.2 (Or.inr (by linarith))

/-- Witness for C6: a falling player with a `0.18 s` buffer lands during a
`0.01 s` frame without jumping, and the very next `0.01 s` frame fires the
buffered ground jump. -/
theorem c6_jump_buffering_witness :
    (stepFrame 1520 ⟨⟨false, false⟩, 1/100, false⟩
      (stepFrame 1520 ⟨⟨false, false⟩, 1/100, false⟩
        { initialPlayer with
          y := 427, vy := 300, jumpBuf := 18/100, jumpsLeft := 0 }).1).2 =
      some (-700) := by
  have hland : (stepFrame 1520 ⟨⟨false, false⟩, 1/100, false⟩
      { initialPlayer with
        y := 427, vy := 300, jumpBuf := 18/100,
        jumpsLeft := 0 }).1.onGround = true := by
    norm_num [stepFrame, handlePlayer, landStep, jumpResolve, preJump,
      frameTimers, applyRequest, initialPlayer, clamp, groundY, VH, VW,
      max_def, min_def]
  exact (c6_jump_buffering 1520 (1/100) (1/100) ⟨false, false⟩ ⟨false, false⟩
    { initialPlayer with
      y := 427, vy := 300, jumpBuf := 18/100, jumpsLeft := 0 }
    rfl (by norm_num [initialPlayer]) rfl (by norm_num)
    (by norm_num [initialPlayer]) hland).2.2.2

end Runner
